import Mathlib

/-!
Shallow embedding of the `howtfdoi` CLI core (main.go): the response parser,
the safety matcher (Go RE2 regular expressions over the fixed dangerous-pattern
list), the stream aggregators inside the provider `Query` methods, and the
response-handling pipeline (display, safety warning, history append, clipboard
copy, confirmed execution), modelled as trace-producing functions.

Strings are modelled as `List Char` (Go strings are byte sequences iterated as
runes; all inputs of interest here are sequences of characters).
-/

/-- Go strings, modelled as lists of characters. -/
abbrev GoStr := List Char

/-! ## Go RE2 regular expressions (the fragment used by `dangerousPatterns`)

The seven patterns in `dangerousPatterns` use only: literal characters,
the character class `\s`, the any-character-except-newline `.`, the
repetitions `+` and `*`, grouping `()`, and alternation `|` (the fork-bomb
pattern `:(){ :|:& };:` is parsed by Go's regexp as an alternation of the two
literal branches `:(){ :` and `:& };:`, with `()` an empty group and the
braces literal since they begin no valid repetition).
We embed this fragment with a Brzozowski-derivative matcher. -/

/-- Regular expressions: the fragment of Go RE2 syntax used by the source. -/
inductive Rx : Type
  /-- matches nothing -/
  | void : Rx
  /-- matches the empty string -/
  | eps : Rx
  /-- a literal character -/
  | lit : Char → Rx
  /-- any character except newline (RE2 `.`) -/
  | anyNoNL : Rx
  /-- RE2 whitespace class `\s`, namely `[\t\n\f\r ]` -/
  | ws : Rx
  /-- concatenation -/
  | cat : Rx → Rx → Rx
  /-- alternation `|` -/
  | alt : Rx → Rx → Rx
  /-- Kleene star `*` -/
  | star : Rx → Rx
deriving DecidableEq, Repr

namespace Rx

/-- The RE2 repetition `e+`, which is `e e*`. -/
def plus (e : Rx) : Rx := .cat e (.star e)

/-- Concatenation of a string of literal characters. -/
def str (s : GoStr) : Rx := s.foldr (fun c e => .cat (.lit c) e) .eps

/-- RE2's `\s` class: `[\t\n\f\r ]`. -/
def isRxSpace (c : Char) : Bool :=
  c = '\t' || c = '\n' || c = '\x0c' || c = '\r' || c = ' '

/-- Does the expression accept the empty string? -/
def nullable : Rx → Bool
  | .void => false
  | .eps => true
  | .lit _ => false
  | .anyNoNL => false
  | .ws => false
  | .cat a b => nullable a && nullable b
  | .alt a b => nullable a || nullable b
  | .star _ => true

/-- Smart concatenation (keeps derivative terms small). -/
def scat : Rx → Rx → Rx
  | .void, _ => .void
  | _, .void => .void
  | .eps, b => b
  | a, .eps => a
  | a, b => .cat a b

/-- Smart alternation (keeps derivative terms small). -/
def salt : Rx → Rx → Rx
  | .void, b => b
  | a, .void => a
  | a, b => .alt a b

/-- Brzozowski derivative with respect to one character. -/
def deriv : Rx → Char → Rx
  | .void, _ => .void
  | .eps, _ => .void
  | .lit c, a => if a = c then .eps else .void
  | .anyNoNL, a => if a = '\n' then .void else .eps
  | .ws, a => if isRxSpace a then .eps else .void
  | .cat r s, a =>
      if nullable r then salt (scat (deriv r a) s) (deriv s a)
      else scat (deriv r a) s
  | .alt r s, a => salt (deriv r a) (deriv s a)
  | .star r, a => scat (deriv r a) (.star r)

/-- Does `r` match starting at the front of `cs` (consuming some initial segment)? -/
def matchesFrom (r : Rx) : GoStr → Bool
  | [] => nullable r
  | c :: cs => nullable r || matchesFrom (deriv r c) cs

/-- Go's unanchored `Regexp.MatchString`: does any substring match? -/
def matchString (r : Rx) : GoStr → Bool
  | [] => matchesFrom r []
  | c :: cs => matchesFrom r (c :: cs) || matchString r cs

end Rx

/-! ## The dangerous patterns (main.go, `dangerousPatterns`) -/

open Rx in
/-- The fixed process-wide pattern set compiled once at startup:
`rm\s+-rf\s+/`, `rm\s+-rf\s+\*`, `dd\s+.*of=/dev/`, `mkfs\.`,
`:(){ :|:& };:`, `>\s*/dev/sd`, `mv\s+.*\s+/dev/null`. -/
def dangerousPatterns : List Rx :=
  [ .cat (str ("rm").data) (.cat (plus .ws) (.cat (str ("-rf").data) (.cat (plus .ws) (.lit '/')))),
    .cat (str ("rm").data) (.cat (plus .ws) (.cat (str ("-rf").data) (.cat (plus .ws) (.lit '*')))),
    .cat (str ("dd").data) (.cat (plus .ws) (.cat (.star .anyNoNL) (str ("of=/dev/").data))),
    str ("mkfs.").data,
    .alt (.cat (.lit ':') (.cat .eps (str ("\x7b :").data)))
         (str (":& \x7d;:").data),
    .cat (.lit '>') (.cat (.star .ws) (str ("/dev/sd").data)),
    .cat (str ("mv").data) (.cat (plus .ws) (.cat (.star .anyNoNL) (.cat (plus .ws) (str ("/dev/null").data)))) ]

/-- Function `isDangerous` (main.go): true iff some pattern matches the command. -/
def isDangerous (command : GoStr) : Bool :=
  dangerousPatterns.any (fun pattern => pattern.matchString command)

/-! ## Go string helpers used by the source -/

/-- Go `unicode.IsSpace`: `\t \n \v \f \r ` space, NEL, NBSP, and the
Unicode space separators (category Zs) plus line/paragraph separators. -/
def goIsSpace (c : Char) : Bool :=
  c = '\t' || c = '\n' || c = '\x0b' || c = '\x0c' || c = '\r' || c = ' ' ||
  c = '\u0085' || c = '\u00a0' ||
  c = '\u1680' || ('\u2000' ≤ c && c ≤ '\u200a') ||
  c = '\u2028' || c = '\u2029' || c = '\u202f' || c = '\u205f' || c = '\u3000'

/-- Go `strings.TrimSpace`: drop leading and trailing whitespace. -/
def goTrimSpace (s : GoStr) : GoStr :=
  ((s.dropWhile goIsSpace).reverse.dropWhile goIsSpace).reverse

/-- Go `strings.Split(s, "\n")`: split on newlines; yields `[[]]` on empty
input and one (possibly empty) piece per newline-separated segment. -/
def splitOnNL : GoStr → List GoStr
  | [] => [[]]
  | c :: cs =>
      if c = '\n' then [] :: splitOnNL cs
      else
        match splitOnNL cs with
        | [] => [[c]]
        | piece :: pieces => (c :: piece) :: pieces

/-- Go `strings.Join(pieces, "\n")`. -/
def joinNL : List GoStr → GoStr
  | [] => []
  | [piece] => piece
  | piece :: pieces => piece ++ '\n' :: joinNL pieces

/-- Go `strings.ToLower` restricted to the ASCII letters (the only characters
whose lowering is relevant to the `y`/`yes` comparison in the source); all
other characters are kept unchanged. -/
def goToLower (s : GoStr) : GoStr :=
  s.map (fun c => if 'A' ≤ c && c ≤ 'Z' then Char.ofNat (c.toNat + 32) else c)

/-! ## The data model (main.go) -/

/-- Struct `Response` (main.go): the parsed response. -/
structure Response where
  Command : GoStr
  Explanation : GoStr
  FullText : GoStr
deriving DecidableEq, Repr

/-- Struct `ResponseOptions` (main.go): options for processing responses. -/
structure ResponseOptions where
  CopyToClipboard : Bool
  Execute : Bool
deriving DecidableEq, Repr

/-- Struct `Config` (main.go): runtime configuration (the fields the response
pipeline reads). -/
structure Config where
  APIKey : GoStr
  HistoryFile : GoStr
  Platform : GoStr
  Verbose : Bool
  Provider : GoStr
deriving DecidableEq, Repr

/-! ## Response parser (main.go, `parseResponse`) -/

/-- Function `parseResponse` (main.go): split into lines, keep the trimmed non-empty
lines (accumulated in order, as the Go loop appends them), take the first as
the command and join the rest with newlines as the explanation. -/
def parseResponse (text : GoStr) : Response :=
  let lines := splitOnNL text
  let nonEmptyLines := lines.foldl
    (fun acc line =>
      let trimmed := goTrimSpace line
      if trimmed ≠ [] then acc ++ [trimmed] else acc) []
  { FullText := text
    Command :=
      match nonEmptyLines with
      | [] => []
      | cmd :: _ => cmd
    Explanation :=
      match nonEmptyLines with
      | _ :: rest@(_ :: _) => joinNL rest
      | _ => [] }

/-! ## Effects model

The pipeline functions in main.go perform console output, file I/O, clipboard
access and process execution.  We model a run as the ordered list of these
observable effects; the outcomes of the OS interactions the code reacts to
(file open/write success, clipboard success, the confirmation line read from
stdin, the child process outcome, the current time) are supplied by a `Sys`
record. -/

/-- One observable side effect of the response pipeline. -/
inductive Effect : Type
  /-- the command line printed by the display step -/
  | printCommand (cmd : GoStr)
  /-- the explanation printed by the display step -/
  | printExplanation (text : GoStr)
  /-- the raw full text printed by the display fallback -/
  | printFullText (text : GoStr)
  /-- the dangerous-command warning -/
  | warnDangerous
  /-- verbose warning: history file could not be opened -/
  | historyWarnOpen
  /-- verbose warning: history file could not be written -/
  | historyWarnWrite
  /-- a record appended to the history file -/
  | historyAppend (entry : GoStr)
  /-- verbose notice that the history record was saved -/
  | historyVerboseSaved
  /-- a clipboard write of the command -/
  | clipboardWrite (cmd : GoStr)
  /-- the copied-to-clipboard notice (printed only on clipboard success) -/
  | clipboardNotice
  /-- the execution banner plus confirmation prompt -/
  | promptExecute (cmd : GoStr)
  /-- the cancellation notice -/
  | printCancelled
  /-- the shell invocation `sh -c cmd` with inherited stdio -/
  | runShell (cmd : GoStr)
  /-- the visible error report when the executed command fails -/
  | printExecError
deriving DecidableEq, Repr

/-- A wall-clock time, as read by `time.Now()`. -/
structure GoTime where
  year : Nat
  month : Nat
  day : Nat
  hour : Nat
  minute : Nat
  second : Nat
deriving DecidableEq, Repr

/-- Outcomes of the OS interactions that the pipeline code reacts to. -/
structure Sys where
  /-- does opening the history file succeed? -/
  historyOpenOk : Bool
  /-- does writing the history entry succeed? -/
  historyWriteOk : Bool
  /-- does the clipboard write succeed? -/
  clipboardOk : Bool
  /-- the raw line read from stdin at the confirmation prompt
  (empty on immediate EOF) -/
  confirmLine : GoStr
  /-- does the executed child process succeed? -/
  execOk : Bool
  /-- the current wall-clock time -/
  now : GoTime
deriving DecidableEq, Repr

/-! ## Timestamp formatting (Go layout `2006-01-02 15:04:05`) -/

/-- The decimal digit character for `n < 10`. -/
def digitChar (n : Nat) : Char := Char.ofNat (48 + n)

/-- Decimal digits of `n`, most significant first (fuelled recursion). -/
def natDigitsAux : Nat → Nat → GoStr
  | 0, _ => []
  | fuel + 1, n =>
      if n < 10 then [digitChar n]
      else natDigitsAux fuel (n / 10) ++ [digitChar (n % 10)]

/-- Decimal digits of `n`, most significant first. -/
def natDigits (n : Nat) : GoStr := natDigitsAux (n + 1) n

/-- Zero-padded decimal of width (at least) `w`, as Go's layout fields do. -/
def padZero (w n : Nat) : GoStr :=
  List.replicate (w - (natDigits n).length) '0' ++ natDigits n

/-- Go `t.Format("2006-01-02 15:04:05")`: `YYYY-MM-DD HH:MM:SS`. -/
def goFormatTimestamp (t : GoTime) : GoStr :=
  padZero 4 t.year ++ '-' :: padZero 2 t.month ++ '-' :: padZero 2 t.day ++
    ' ' :: padZero 2 t.hour ++ ':' :: padZero 2 t.minute ++
    ':' :: padZero 2 t.second

/-! ## The pipeline steps (main.go) -/

/-- Function `displayResponse` (main.go): print the command (and the explanation when
present); when no command was parsed, print the full text instead. -/
def displayResponse (response : Response) : List Effect :=
  if response.Command ≠ [] then
    Effect.printCommand response.Command ::
      (if response.Explanation ≠ [] then
        [Effect.printExplanation response.Explanation]
      else [])
  else
    [Effect.printFullText response.FullText]

/-- The history record `fmt.Sprintf("[%s] %s\n%s\n---\n", timestamp, query,
response)` from `saveToHistory` (main.go). -/
def historyEntry (timestamp query response : GoStr) : GoStr :=
  '[' :: timestamp ++ ("] ").data ++ query ++ '\n' :: response ++ ("\n---\n").data

/-- Function `saveToHistory` (main.go): open the history file in append mode; on open
failure warn only in verbose mode and return; otherwise write one record,
warning only in verbose mode on write failure. -/
def saveToHistory (sys : Sys) (config : Config) (query response : GoStr) :
    List Effect :=
  if sys.historyOpenOk = false then
    if config.Verbose then [Effect.historyWarnOpen] else []
  else
    let entry := historyEntry (goFormatTimestamp sys.now) query response
    if sys.historyWriteOk = false then
      if config.Verbose then [Effect.historyWarnWrite] else []
    else
      Effect.historyAppend entry ::
        (if config.Verbose then [Effect.historyVerboseSaved] else [])

/-- Function `executeCommand` (main.go): show the command and the confirmation prompt,
read one line, lower-case and trim it; cancel unless it is `y` or `yes`,
otherwise run the command through `sh -c` and report a failure visibly. -/
def executeCommand (sys : Sys) (command : GoStr) : List Effect :=
  Effect.promptExecute command ::
    (let input := goTrimSpace (goToLower sys.confirmLine)
     if input ≠ ("y").data ∧ input ≠ ("yes").data then
       [Effect.printCancelled]
     else
       Effect.runShell command ::
         (if sys.execOk then [] else [Effect.printExecError]))

/-- Function `handleResponse` (main.go): display, dangerous-command check, history
append, optional clipboard copy, optional confirmed execution, in this
order. -/
def handleResponse (sys : Sys) (config : Config) (query : GoStr)
    (response : Response) (opts : ResponseOptions) : List Effect :=
  displayResponse response
    ++ (if isDangerous response.Command then [Effect.warnDangerous] else [])
    ++ saveToHistory sys config query response.FullText
    ++ (if opts.CopyToClipboard = true ∧ response.Command ≠ [] then
          Effect.clipboardWrite response.Command ::
            (if sys.clipboardOk then [Effect.clipboardNotice] else [])
        else [])
    ++ (if opts.Execute = true ∧ response.Command ≠ [] then
          executeCommand sys response.Command
        else [])

/-! ## Provider stream aggregation (main.go, the three `Query` methods)

Each `Query` method consumes an incremental event stream and accumulates the
text fragments into one string.  We model the sequence of events the stream
delivers as a list, and the stream-level error as the code observes it. -/

/-- An event delivered by the Anthropic SDK stream iterator. -/
inductive AnthropicEvent : Type
  /-- a `content_block_delta` event; the field is the text of its delta
  (empty for non-text deltas) -/
  | contentBlockDelta (text : GoStr)
  /-- any other event type (message start/stop, usage, ...) -/
  | otherEvent
deriving DecidableEq, Repr

/-- The accumulation loop of `AnthropicProvider.Query` (main.go): append the
text of every `content_block_delta` event, ignore all other events. -/
def anthropicAccumulate (events : List AnthropicEvent) : GoStr :=
  events.foldl
    (fun fullResponse event =>
      match event with
      | .contentBlockDelta text => fullResponse ++ text
      | .otherEvent => fullResponse) []

/-- Method `AnthropicProvider.Query` (main.go): iterate the stream accumulating
deltas, then check `stream.Err()`; on error return `("", err)`, otherwise the
accumulated text.  `events` are the events the iterator delivered before
terminating and `streamErr` is the value of `stream.Err()` afterwards. -/
def anthropicQuery (events : List AnthropicEvent) (streamErr : Option GoStr) :
    GoStr × Option GoStr :=
  let fullResponse := anthropicAccumulate events
  match streamErr with
  | some e => ([], some e)
  | none => (fullResponse, none)

/-- One result of `stream.Recv()` in the OpenAI-compatible `Query` loops. -/
inductive RecvEvent : Type
  /-- a streamed chunk; the list holds each choice's `Delta.Content` -/
  | chunk (choices : List GoStr)
  /-- the `Recv` call returned an error -/
  | recvErr (e : GoStr)
  /-- the `Recv` call returned `io.EOF` -/
  | eof
deriving DecidableEq, Repr

/-- The `Recv` loop shared verbatim by `OpenAIProvider.Query` and
`LMStudioProvider.Query` (main.go): on EOF stop with the accumulated text, on
an error return `("", err)` at once, on a chunk append the first choice's
delta content (when any choice is present) and continue. -/
def openAIRecvLoop : List RecvEvent → GoStr → GoStr × Option GoStr
  | [], fullResponse => (fullResponse, none)
  | RecvEvent.eof :: _, fullResponse => (fullResponse, none)
  | RecvEvent.recvErr e :: _, _ => ([], some e)
  | RecvEvent.chunk choices :: rest, fullResponse =>
      openAIRecvLoop rest
        (fullResponse ++ match choices with
          | [] => []
          | content :: _ => content)

/-- Method `OpenAIProvider.Query` (main.go): `CreateChatCompletionStream` may fail
up front (`createErr`), otherwise the `Recv` loop runs. -/
def openAIQuery (createErr : Option GoStr) (events : List RecvEvent) :
    GoStr × Option GoStr :=
  match createErr with
  | some e => ([], some e)
  | none => openAIRecvLoop events []

/-- Method `LMStudioProvider.Query` (main.go): identical aggregation to
`OpenAIProvider.Query` (only model name and endpoint differ). -/
def lmStudioQuery (createErr : Option GoStr) (events : List RecvEvent) :
    GoStr × Option GoStr :=
  match createErr with
  | some e => ([], some e)
  | none => openAIRecvLoop events []

/-- The ordered sequence of non-blank trimmed lines of a text (the sequence
the parser's accumulation loop builds). -/
def nonBlankTrimmedLines (text : GoStr) : List GoStr :=
  ((splitOnNL text).map goTrimSpace).filter (fun line => line ≠ [])

/-! ## Pipeline step classification -/

/-- The five pipeline steps of `handleResponse`, in their fixed order. -/
inductive PipelineStep : Type
  | displayStep
  | safetyStep
  | historyStep
  | clipboardStep
  | executeStep
deriving DecidableEq, Repr

/-- The position of a step in the fixed pipeline order. -/
def stepRank : PipelineStep → Nat
  | .displayStep => 0
  | .safetyStep => 1
  | .historyStep => 2
  | .clipboardStep => 3
  | .executeStep => 4

/-- Which pipeline step an effect belongs to. -/
def effectStep : Effect → PipelineStep
  | .printCommand _ => .displayStep
  | .printExplanation _ => .displayStep
  | .printFullText _ => .displayStep
  | .warnDangerous => .safetyStep
  | .historyWarnOpen => .historyStep
  | .historyWarnWrite => .historyStep
  | .historyAppend _ => .historyStep
  | .historyVerboseSaved => .historyStep
  | .clipboardWrite _ => .clipboardStep
  | .clipboardNotice => .clipboardStep
  | .promptExecute _ => .executeStep
  | .printCancelled => .executeStep
  | .runShell _ => .executeStep
  | .printExecError => .executeStep

/-- Effect `a` belongs to a step no later than `b`'s. -/
def stepLE (a b : Effect) : Prop :=
  stepRank (effectStep a) ≤ stepRank (effectStep b)

/-! ## Parser lemmas -/

theorem parse_foldl_eq_filter (lines : List GoStr) (acc : List GoStr) :
    lines.foldl
      (fun acc line =>
        let trimmed := goTrimSpace line
        if trimmed ≠ [] then acc ++ [trimmed] else acc) acc
    = acc ++ (lines.map goTrimSpace).filter (fun line => line ≠ []) := by
  induction lines generalizing acc with
  | nil => simp
  | cons line rest ih =>
      simp only [List.foldl_cons, List.map_cons, List.filter_cons]
      show List.foldl _
          (if goTrimSpace line ≠ [] then acc ++ [goTrimSpace line] else acc) rest = _
      by_cases h : goTrimSpace line = []
      · rw [if_neg (not_not_intro h), ih]
        simp [h]
      · rw [if_pos h, ih]
        simp [h]

theorem parseResponse_eq (text : GoStr) :
    parseResponse text =
      { Command := (nonBlankTrimmedLines text).headD []
        Explanation := joinNL (nonBlankTrimmedLines text).tail
        FullText := text } := by
  have h := parse_foldl_eq_filter (splitOnNL text) []
  simp only [List.nil_append] at h
  simp only [parseResponse, h, nonBlankTrimmedLines]
  cases hc : ((splitOnNL text).map goTrimSpace).filter (fun line => line ≠ []) with
  | nil => rfl
  | cons cmd rest =>
      cases rest with
      | nil => rfl
      | cons e more => rfl

/-- C1: parsing never fails and, for every input text, `FullText` is the
input unchanged, `Command` is the first non-blank trimmed line (empty when
there is none), and `Explanation` is the remaining non-blank trimmed lines
joined with newline separators (empty when at most one non-blank line
exists). -/
theorem parseResponse_total_fields (text : GoStr) :
    (parseResponse text).FullText = text ∧
    (parseResponse text).Command = (nonBlankTrimmedLines text).headD [] ∧
    (parseResponse text).Explanation = joinNL (nonBlankTrimmedLines text).tail := by
  rw [parseResponse_eq]
  exact ⟨rfl, rfl, rfl⟩

/-- C5 counterexample: the text `" ls \nfoo"` has two lines, none blank, yet
the parsed command is the trimmed `"ls"`, not the first line `" ls "`. -/
theorem parse_clean_counterexample :
    ((splitOnNL (" ls \nfoo").data).length = 2 ∧
      ∀ line ∈ splitOnNL (" ls \nfoo").data, goTrimSpace line ≠ []) ∧
    (parseResponse (" ls \nfoo").data).Command ≠
      (splitOnNL (" ls \nfoo").data).headD [] := by
  decide

/-- C5 (amended): for any text with at least two lines in which every line is
non-blank and free of leading/trailing whitespace (equal to its own trim),
the parsed command is the first line and the explanation is the remaining
lines joined by newlines. -/
theorem parse_clean_amended (text : GoStr)
    (hlen : 2 ≤ (splitOnNL text).length)
    (hclean : ∀ line ∈ splitOnNL text, goTrimSpace line = line ∧ line ≠ []) :
    (parseResponse text).Command = (splitOnNL text).headD [] ∧
    (parseResponse text).Explanation = joinNL (splitOnNL text).tail := by
  have hmap : (splitOnNL text).map goTrimSpace = splitOnNL text := by
    calc (splitOnNL text).map goTrimSpace
        = (splitOnNL text).map id :=
          List.map_congr_left (fun a ha => (hclean a ha).1)
      _ = splitOnNL text := List.map_id _
  have hfilter : (splitOnNL text).filter (fun line => line ≠ []) = splitOnNL text :=
    List.filter_eq_self.mpr (fun a ha => by simpa using (hclean a ha).2)
  have hnb : nonBlankTrimmedLines text = splitOnNL text := by
    unfold nonBlankTrimmedLines
    rw [hmap, hfilter]
  rw [parseResponse_eq, hnb]
  exact ⟨rfl, rfl⟩

/-- C5 witness: the amended statement applied at the concrete text
`"ab\ncd"`. -/
theorem parse_clean_amended_witness :
    (2 ≤ (splitOnNL ("ab\ncd").data).length ∧
      ∀ line ∈ splitOnNL ("ab\ncd").data, goTrimSpace line = line ∧ line ≠ []) ∧
    ((parseResponse ("ab\ncd").data).Command = (splitOnNL ("ab\ncd").data).headD [] ∧
      (parseResponse ("ab\ncd").data).Explanation =
        joinNL (splitOnNL ("ab\ncd").data).tail) :=
  ⟨by decide, parse_clean_amended ("ab\ncd").data (by decide) (by decide)⟩

/-- C3: the four dangerous example commands match the fixed pattern set and
the two harmless ones do not. -/
theorem isDangerous_examples :
    isDangerous ("rm -rf /").data = true ∧
    isDangerous ("sudo mkfs.ext4 /dev/sda1").data = true ∧
    isDangerous ("dd if=/dev/zero of=/dev/sda").data = true ∧
    isDangerous (":()\x7b :|:& \x7d;:").data = true ∧
    isDangerous ("ls -la").data = false ∧
    isDangerous ("git status").data = false := by
  decide

/-! ## Monotonicity of unanchored matching -/

theorem Rx.matchesFrom_append_right (r : Rx) (cs suf : GoStr)
    (h : r.matchesFrom cs = true) : r.matchesFrom (cs ++ suf) = true := by
  induction cs generalizing r with
  | nil =>
      have hn : r.nullable = true := h
      cases suf with
      | nil => exact hn
      | cons c rest => simp [Rx.matchesFrom, hn]
  | cons c rest ih =>
      simp only [Rx.matchesFrom, Bool.or_eq_true] at h
      cases h with
      | inl hn => simp [Rx.matchesFrom, hn]
      | inr hm =>
          simp only [List.cons_append, Rx.matchesFrom, Bool.or_eq_true]
          exact Or.inr (ih _ hm)

theorem Rx.matchString_append_right (r : Rx) (cs suf : GoStr)
    (h : r.matchString cs = true) : r.matchString (cs ++ suf) = true := by
  induction cs with
  | nil =>
      have hn : r.nullable = true := h
      cases suf with
      | nil => exact hn
      | cons c rest =>
          simp only [List.nil_append, Rx.matchString, Bool.or_eq_true]
          exact Or.inl (by simp [Rx.matchesFrom, hn])
  | cons c rest ih =>
      simp only [Rx.matchString, Bool.or_eq_true] at h
      simp only [List.cons_append, Rx.matchString, Bool.or_eq_true]
      cases h with
      | inl hm => exact Or.inl (Rx.matchesFrom_append_right r _ suf hm)
      | inr hm => exact Or.inr (ih hm)

theorem Rx.matchString_append_left (r : Rx) (pre cs : GoStr)
    (h : r.matchString cs = true) : r.matchString (pre ++ cs) = true := by
  induction pre with
  | nil => exact h
  | cons c rest ih =>
      simp only [List.cons_append, Rx.matchString, Bool.or_eq_true]
      exact Or.inr ih

/-- C10: the safety matcher is monotone under string extension (every
pattern is matched unanchored), and the empty command is not dangerous. -/
theorem isDangerous_monotone :
    (∀ pre cmd suf : GoStr,
      isDangerous cmd = true → isDangerous (pre ++ cmd ++ suf) = true) ∧
    isDangerous [] = false := by
  constructor
  · intro pre cmd suf h
    simp only [isDangerous, List.any_eq_true] at h ⊢
    obtain ⟨pattern, hmem, hmatch⟩ := h
    exact ⟨pattern, hmem,
      Rx.matchString_append_right _ (pre ++ cmd) suf
        (Rx.matchString_append_left _ pre cmd hmatch)⟩
  · decide

/-- C10 witness: extending the dangerous `"rm -rf /"` on both sides keeps it
dangerous. -/
theorem isDangerous_monotone_witness :
    isDangerous ("rm -rf /").data = true ∧
    isDangerous (("echo hi; ").data ++ ("rm -rf /").data ++ (" #done").data) = true :=
  ⟨by decide,
    isDangerous_monotone.1 ("echo hi; ").data ("rm -rf /").data (" #done").data
      (by decide)⟩

theorem openAIRecvLoop_chunks_err (chunks : List (List GoStr)) (e : GoStr)
    (rest : List RecvEvent) (acc : GoStr) :
    openAIRecvLoop (chunks.map RecvEvent.chunk ++ RecvEvent.recvErr e :: rest) acc
      = ([], some e) := by
  induction chunks generalizing acc with
  | nil => rfl
  | cons c cs ih => exact ih _

/-- C2: all three provider `Query` variants are all-or-nothing: when an
error is surfaced — up front, or after any number of accumulated text
fragments — the result is the empty string paired with the error, never the
partial text. -/
theorem query_all_or_nothing :
    (∀ (events : List AnthropicEvent) (e : GoStr),
        anthropicQuery events (some e) = ([], some e)) ∧
    (∀ (chunks : List (List GoStr)) (e : GoStr) (rest : List RecvEvent),
        openAIQuery none (chunks.map RecvEvent.chunk ++ RecvEvent.recvErr e :: rest)
          = ([], some e)) ∧
    (∀ (chunks : List (List GoStr)) (e : GoStr) (rest : List RecvEvent),
        lmStudioQuery none (chunks.map RecvEvent.chunk ++ RecvEvent.recvErr e :: rest)
          = ([], some e)) ∧
    (∀ (e : GoStr) (events : List RecvEvent),
        openAIQuery (some e) events = ([], some e)) ∧
    (∀ (e : GoStr) (events : List RecvEvent),
        lmStudioQuery (some e) events = ([], some e)) :=
  ⟨fun _ _ => rfl,
   fun chunks e rest => openAIRecvLoop_chunks_err chunks e rest [],
   fun chunks e rest => openAIRecvLoop_chunks_err chunks e rest [],
   fun _ _ => rfl,
   fun _ _ => rfl⟩

/-- C9: the display step prints the command (plus the explanation when
non-empty) when a command was parsed, and prints the full text verbatim
instead when the command is empty; never both. -/
theorem displayResponse_cases (response : Response) :
    (response.Command ≠ [] →
      displayResponse response =
        Effect.printCommand response.Command ::
          (if response.Explanation ≠ [] then
            [Effect.printExplanation response.Explanation]
          else []) ∧
      Effect.printFullText response.FullText ∉ displayResponse response) ∧
    (response.Command = [] →
      displayResponse response = [Effect.printFullText response.FullText] ∧
      Effect.printCommand response.Command ∉ displayResponse response) := by
  by_cases h : response.Command = []
  · constructor
    · intro hc
      exact absurd h hc
    · intro _
      refine ⟨by simp [displayResponse, h], ?_⟩
      simp [displayResponse, h]
  · constructor
    · intro _
      refine ⟨by simp [displayResponse, h], ?_⟩
      by_cases he : response.Explanation = [] <;>
        simp [displayResponse, h, he]
    · intro hc
      exact absurd hc h

/-- C9 witness: the two display renderings at concrete responses with a
non-empty and an empty command. -/
theorem displayResponse_cases_witness :
    (("ls").data ≠ ([] : GoStr) ∧
      displayResponse ⟨("ls").data, ("x").data, ("ls\nx").data⟩ =
        Effect.printCommand ("ls").data ::
          (if ("x").data ≠ ([] : GoStr) then
            [Effect.printExplanation ("x").data]
          else []) ∧
      Effect.printFullText ("ls\nx").data ∉
        displayResponse ⟨("ls").data, ("x").data, ("ls\nx").data⟩) ∧
    (displayResponse ⟨[], [], ("\n\n").data⟩ =
        [Effect.printFullText ("\n\n").data] ∧
      Effect.printCommand [] ∉ displayResponse ⟨[], [], ("\n\n").data⟩) :=
  ⟨⟨by decide, (displayResponse_cases ⟨("ls").data, ("x").data, ("ls\nx").data⟩).1 (by decide)⟩,
    (displayResponse_cases ⟨[], [], ("\n\n").data⟩).2 rfl⟩

/-- C7: the executor runs the shell iff the normalized confirmation line is
`y` or `yes`; on any other line (including the empty one read at EOF) it
prints the cancellation notice and performs no shell invocation and no
error. -/
theorem executeCommand_confirmation (sys : Sys) (command : GoStr) :
    (goTrimSpace (goToLower sys.confirmLine) = ("y").data ∨
        goTrimSpace (goToLower sys.confirmLine) = ("yes").data →
      executeCommand sys command =
        Effect.promptExecute command :: Effect.runShell command ::
          (if sys.execOk then [] else [Effect.printExecError])) ∧
    (goTrimSpace (goToLower sys.confirmLine) ≠ ("y").data ∧
        goTrimSpace (goToLower sys.confirmLine) ≠ ("yes").data →
      executeCommand sys command =
        [Effect.promptExecute command, Effect.printCancelled]) := by
  constructor
  · intro h
    simp only [executeCommand]
    rw [if_neg (fun hc => h.elim (fun hy => hc.1 hy) (fun hy => hc.2 hy))]
  · intro h
    simp only [executeCommand]
    rw [if_pos h]

/-- C7 witness: the concrete confirmation lines `" YES\n"` (runs the shell)
and `""` (EOF, cancels). -/
theorem executeCommand_confirmation_witness :
    (goTrimSpace (goToLower (" YES\n").data) = ("yes").data ∧
      executeCommand ⟨true, true, true, (" YES\n").data, true, ⟨2024, 1, 2, 3, 4, 5⟩⟩
          ("ls").data =
        Effect.promptExecute ("ls").data :: Effect.runShell ("ls").data ::
          (if true then [] else [Effect.printExecError])) ∧
    (goTrimSpace (goToLower ([] : GoStr)) ≠ ("y").data ∧
      executeCommand ⟨true, true, true, [], true, ⟨2024, 1, 2, 3, 4, 5⟩⟩
          ("ls").data =
        [Effect.promptExecute ("ls").data, Effect.printCancelled]) :=
  ⟨⟨by decide,
      (executeCommand_confirmation
        ⟨true, true, true, (" YES\n").data, true, ⟨2024, 1, 2, 3, 4, 5⟩⟩
        ("ls").data).1 (Or.inr (by decide))⟩,
    ⟨by decide,
      (executeCommand_confirmation
        ⟨true, true, true, [], true, ⟨2024, 1, 2, 3, 4, 5⟩⟩
        ("ls").data).2 ⟨by decide, by decide⟩⟩⟩

/-- C8: a successful history append emits exactly one record, of the exact
shape `[timestamp] query\nfullText\n---\n` with the timestamp in
`YYYY-MM-DD HH:MM:SS` layout and the text unescaped, ending in the `---`
separator line. -/
theorem saveToHistory_record (sys : Sys) (config : Config) (query resp : GoStr)
    (hOpen : sys.historyOpenOk = true) (hWrite : sys.historyWriteOk = true) :
    saveToHistory sys config query resp =
      Effect.historyAppend
          (("[").data ++ goFormatTimestamp sys.now ++ ("] ").data ++ query ++
            ("\n").data ++ resp ++ ("\n---\n").data) ::
        (if config.Verbose then [Effect.historyVerboseSaved] else []) ∧
    ∃ front,
      ("[").data ++ goFormatTimestamp sys.now ++ ("] ").data ++ query ++
          ("\n").data ++ resp ++ ("\n---\n").data =
        front ++ ("\n---\n").data := by
  constructor
  · simp [saveToHistory, hOpen, hWrite, historyEntry]
  · exact ⟨("[").data ++ goFormatTimestamp sys.now ++ ("] ").data ++ query ++
      ("\n").data ++ resp, by simp⟩

/-- C8 witness: a concrete successful append at time 2024-05-07 09:30:05. -/
theorem saveToHistory_record_witness :
    saveToHistory ⟨true, true, true, [], true, ⟨2024, 5, 7, 9, 30, 5⟩⟩
        ⟨[], [], [], false, []⟩ ("list files").data ("ls -la").data =
      [Effect.historyAppend (("[2024-05-07 09:30:05] list files\nls -la\n---\n").data)] ∧
    ∃ front,
      ("[").data ++ goFormatTimestamp ⟨2024, 5, 7, 9, 30, 5⟩ ++ ("] ").data ++
          ("list files").data ++ ("\n").data ++ ("ls -la").data ++ ("\n---\n").data =
        front ++ ("\n---\n").data := by
  have h := saveToHistory_record ⟨true, true, true, [], true, ⟨2024, 5, 7, 9, 30, 5⟩⟩
    ⟨[], [], [], false, []⟩ ("list files").data ("ls -la").data rfl rfl
  exact ⟨by rw [h.1]; decide, h.2⟩

theorem effectStep_displayResponse (response : Response) :
    ∀ e ∈ displayResponse response, effectStep e = PipelineStep.displayStep := by
  intro e he
  by_cases h : response.Command = []
  · simp [displayResponse, h] at he
    subst he; rfl
  · by_cases hx : response.Explanation = []
    · simp [displayResponse, h, hx] at he
      subst he; rfl
    · simp [displayResponse, h, hx] at he
      rcases he with he | he <;> subst he <;> rfl

theorem effectStep_saveToHistory (sys : Sys) (config : Config) (query resp : GoStr) :
    ∀ e ∈ saveToHistory sys config query resp,
      effectStep e = PipelineStep.historyStep := by
  intro e he
  by_cases ho : sys.historyOpenOk = false
  · by_cases hv : config.Verbose <;> simp [saveToHistory, ho, hv] at he
    subst he; rfl
  · by_cases hw : sys.historyWriteOk = false
    · by_cases hv : config.Verbose <;> simp [saveToHistory, ho, hw, hv] at he
      subst he; rfl
    · by_cases hv : config.Verbose <;> simp [saveToHistory, ho, hw, hv] at he
      · rcases he with he | he <;> subst he <;> rfl
      · subst he; rfl

theorem effectStep_executeCommand (sys : Sys) (command : GoStr) :
    ∀ e ∈ executeCommand sys command,
      effectStep e = PipelineStep.executeStep := by
  intro e he
  by_cases hc : goTrimSpace (goToLower sys.confirmLine) ≠ ("y").data ∧
      goTrimSpace (goToLower sys.confirmLine) ≠ ("yes").data
  · simp [executeCommand, hc] at he
    rcases he with he | he <;> subst he <;> rfl
  · by_cases hx : sys.execOk <;> simp [executeCommand, hc, hx] at he
    · rcases he with he | he <;> subst he <;> rfl
    · rcases he with he | he | he <;> subst he <;> rfl

theorem effectStep_warnSeg (b : Bool) :
    ∀ e ∈ (if b then [Effect.warnDangerous] else []),
      effectStep e = PipelineStep.safetyStep := by
  intro e he
  cases b <;> simp at he
  subst he; rfl

theorem effectStep_clipSeg (cond : Prop) [Decidable cond] (cmd : GoStr) (ok : Bool) :
    ∀ e ∈ (if cond then
        Effect.clipboardWrite cmd ::
          (if ok then [Effect.clipboardNotice] else [])
      else []),
      effectStep e = PipelineStep.clipboardStep := by
  intro e he
  by_cases h : cond
  · by_cases hx : ok <;> simp [h, hx] at he
    · rcases he with he | he <;> subst he <;> rfl
    · subst he; rfl
  · simp [h] at he

theorem effectStep_execSeg (cond : Prop) [Decidable cond] (sys : Sys) (cmd : GoStr) :
    ∀ e ∈ (if cond then executeCommand sys cmd else []),
      effectStep e = PipelineStep.executeStep := by
  intro e he
  by_cases h : cond
  · rw [if_pos h] at he
    exact effectStep_executeCommand sys cmd e he
  · simp [h] at he

theorem stepLE_of (a b : Effect) (sa sb : PipelineStep)
    (ha : effectStep a = sa) (hb : effectStep b = sb)
    (h : stepRank sa ≤ stepRank sb) : stepLE a b := by
  unfold stepLE
  rw [ha, hb]
  exact h

theorem handleResponse_pairwise (sys : Sys) (config : Config) (query : GoStr)
    (response : Response) (opts : ResponseOptions) :
    (handleResponse sys config query response opts).Pairwise stepLE := by
  have hA := effectStep_displayResponse response
  have hB := effectStep_warnSeg (isDangerous response.Command)
  have hC := effectStep_saveToHistory sys config query response.FullText
  have hD := effectStep_clipSeg (opts.CopyToClipboard = true ∧ response.Command ≠ [])
    response.Command sys.clipboardOk
  have hE := effectStep_execSeg (opts.Execute = true ∧ response.Command ≠ [])
    sys response.Command
  have pA : (displayResponse response).Pairwise stepLE :=
    List.pairwise_of_forall_mem_list
      (fun a ha b hb => stepLE_of a b _ _ (hA a ha) (hA b hb) (le_refl _))
  have pB : (if isDangerous response.Command then [Effect.warnDangerous] else []).Pairwise stepLE :=
    List.pairwise_of_forall_mem_list
      (fun a ha b hb => stepLE_of a b _ _ (hB a ha) (hB b hb) (le_refl _))
  have pC : (saveToHistory sys config query response.FullText).Pairwise stepLE :=
    List.pairwise_of_forall_mem_list
      (fun a ha b hb => stepLE_of a b _ _ (hC a ha) (hC b hb) (le_refl _))
  have pD : (if opts.CopyToClipboard = true ∧ response.Command ≠ [] then
      Effect.clipboardWrite response.Command ::
        (if sys.clipboardOk then [Effect.clipboardNotice] else [])
    else []).Pairwise stepLE :=
    List.pairwise_of_forall_mem_list
      (fun a ha b hb => stepLE_of a b _ _ (hD a ha) (hD b hb) (le_refl _))
  have pE : (if opts.Execute = true ∧ response.Command ≠ [] then
      executeCommand sys response.Command
    else []).Pairwise stepLE :=
    List.pairwise_of_forall_mem_list
      (fun a ha b hb => stepLE_of a b _ _ (hE a ha) (hE b hb) (le_refl _))
  have memAB : ∀ a ∈ displayResponse response ++
      (if isDangerous response.Command then [Effect.warnDangerous] else []),
      stepRank (effectStep a) ≤ 1 := by
    intro a ha
    rcases List.mem_append.mp ha with h | h
    · rw [hA a h]; decide
    · rw [hB a h]; decide
  have memABC : ∀ a ∈ displayResponse response ++
      (if isDangerous response.Command then [Effect.warnDangerous] else []) ++
      saveToHistory sys config query response.FullText,
      stepRank (effectStep a) ≤ 2 := by
    intro a ha
    rcases List.mem_append.mp ha with h | h
    · exact le_trans (memAB a h) (by decide)
    · rw [hC a h]; decide
  have memABCD : ∀ a ∈ displayResponse response ++
      (if isDangerous response.Command then [Effect.warnDangerous] else []) ++
      saveToHistory sys config query response.FullText ++
      (if opts.CopyToClipboard = true ∧ response.Command ≠ [] then
        Effect.clipboardWrite response.Command ::
          (if sys.clipboardOk then [Effect.clipboardNotice] else [])
      else []),
      stepRank (effectStep a) ≤ 3 := by
    intro a ha
    rcases List.mem_append.mp ha with h | h
    · exact le_trans (memABC a h) (by decide)
    · rw [hD a h]; decide
  unfold handleResponse
  refine List.pairwise_append.mpr ⟨?_, pE, ?_⟩
  · refine List.pairwise_append.mpr ⟨?_, pD, ?_⟩
    · refine List.pairwise_append.mpr ⟨?_, pC, ?_⟩
      · exact List.pairwise_append.mpr ⟨pA, pB,
          fun a ha b hb => stepLE_of a b _ _ (hA a ha) (hB b hb) (by decide)⟩
      · intro a ha b hb
        unfold stepLE
        rw [hC b hb]
        exact le_trans (memAB a ha) (by decide)
    · intro a ha b hb
      unfold stepLE
      rw [hD b hb]
      exact le_trans (memABC a ha) (by decide)
  · intro a ha b hb
    unfold stepLE
    rw [hE b hb]
    exact le_trans (memABCD a ha) (by decide)

/-- C4: the pipeline always runs its steps in the fixed order display,
safety check, history append, clipboard copy, execution; and when the
history sink fails to open, the trace is the same except that the history
step contributes at most a verbose warning — display, clipboard and
execution still run and no error is raised. -/
theorem handleResponse_order_fault_isolation :
    (∀ (sys : Sys) (config : Config) (query : GoStr) (response : Response)
        (opts : ResponseOptions),
      (handleResponse sys config query response opts).Pairwise stepLE) ∧
    (∀ (sys : Sys) (config : Config) (query : GoStr) (response : Response)
        (opts : ResponseOptions), sys.historyOpenOk = false →
      handleResponse sys config query response opts =
        displayResponse response
          ++ (if isDangerous response.Command then [Effect.warnDangerous] else [])
          ++ (if config.Verbose then [Effect.historyWarnOpen] else [])
          ++ (if opts.CopyToClipboard = true ∧ response.Command ≠ [] then
                Effect.clipboardWrite response.Command ::
                  (if sys.clipboardOk then [Effect.clipboardNotice] else [])
              else [])
          ++ (if opts.Execute = true ∧ response.Command ≠ [] then
                executeCommand sys response.Command
              else [])) := by
  constructor
  · exact handleResponse_pairwise
  · intro sys config query response opts h
    unfold handleResponse
    have : saveToHistory sys config query response.FullText =
        (if config.Verbose then [Effect.historyWarnOpen] else []) := by
      simp [saveToHistory, h]
    rw [this]

/-- C4 witness: with a history sink that fails to open, a quiet config, and
both options requested, the full trace still shows display, clipboard copy
and confirmed execution, and nothing from the history step. -/
theorem handleResponse_order_fault_isolation_witness :
    (Sys.historyOpenOk ⟨false, true, true, ("y\n").data, true, ⟨2024, 1, 2, 3, 4, 5⟩⟩
        = false) ∧
    handleResponse ⟨false, true, true, ("y\n").data, true, ⟨2024, 1, 2, 3, 4, 5⟩⟩
        ⟨[], [], [], false, []⟩ ("q").data ⟨("ls").data, [], ("ls").data⟩ ⟨true, true⟩ =
      [Effect.printCommand ("ls").data,
        Effect.clipboardWrite ("ls").data, Effect.clipboardNotice,
        Effect.promptExecute ("ls").data, Effect.runShell ("ls").data] :=
  ⟨rfl, by
    rw [handleResponse_order_fault_isolation.2
      ⟨false, true, true, ("y\n").data, true, ⟨2024, 1, 2, 3, 4, 5⟩⟩
      ⟨[], [], [], false, []⟩ ("q").data ⟨("ls").data, [], ("ls").data⟩ ⟨true, true⟩ rfl]
    decide⟩

/-- C6: the clipboard write of the command is attempted iff copying was
requested and the command is non-empty, and the confirmed executor is
invoked iff execution was requested and the command is non-empty. -/
theorem handleResponse_clipboard_execute (sys : Sys) (config : Config)
    (query : GoStr) (response : Response) (opts : ResponseOptions) :
    (Effect.clipboardWrite response.Command ∈
        handleResponse sys config query response opts ↔
      opts.CopyToClipboard = true ∧ response.Command ≠ []) ∧
    (Effect.promptExecute response.Command ∈
        handleResponse sys config query response opts ↔
      opts.Execute = true ∧ response.Command ≠ []) := by
  have hA := effectStep_displayResponse response
  have hB := effectStep_warnSeg (isDangerous response.Command)
  have hC := effectStep_saveToHistory sys config query response.FullText
  have hE := effectStep_execSeg (opts.Execute = true ∧ response.Command ≠ [])
    sys response.Command
  constructor
  · constructor
    · intro hmem
      unfold handleResponse at hmem
      rcases List.mem_append.mp hmem with hm | hm
      · rcases List.mem_append.mp hm with hm | hm
        · rcases List.mem_append.mp hm with hm | hm
          · rcases List.mem_append.mp hm with hm | hm
            · exact absurd (hA _ hm) (by simp [effectStep])
            · exact absurd (hB _ hm) (by simp [effectStep])
          · exact absurd (hC _ hm) (by simp [effectStep])
        · by_cases hc : opts.CopyToClipboard = true ∧ response.Command ≠ []
          · exact hc
          · rw [if_neg hc] at hm
            cases hm
      · exact absurd (hE _ hm) (by simp [effectStep])
    · intro hc
      unfold handleResponse
      refine List.mem_append.mpr (Or.inl (List.mem_append.mpr (Or.inr ?_)))
      rw [if_pos hc]
      exact List.mem_cons_self _ _
  · constructor
    · intro hmem
      unfold handleResponse at hmem
      rcases List.mem_append.mp hmem with hm | hm
      · rcases List.mem_append.mp hm with hm | hm
        · rcases List.mem_append.mp hm with hm | hm
          · rcases List.mem_append.mp hm with hm | hm
            · exact absurd (hA _ hm) (by simp [effectStep])
            · exact absurd (hB _ hm) (by simp [effectStep])
          · exact absurd (hC _ hm) (by simp [effectStep])
        · by_cases hc : opts.CopyToClipboard = true ∧ response.Command ≠ []
          · rw [if_pos hc] at hm
            by_cases hk : sys.clipboardOk <;> simp [hk] at hm
          · rw [if_neg hc] at hm
            cases hm
      · by_cases hx : opts.Execute = true ∧ response.Command ≠ []
        · exact hx
        · rw [if_neg hx] at hm
          cases hm
    · intro hx
      unfold handleResponse
      refine List.mem_append.mpr (Or.inr ?_)
      rw [if_pos hx]
      unfold executeCommand
      exact List.mem_cons_self _ _

/-- C6 witness: with both options requested and the non-empty command `ls`,
the clipboard write and the executor prompt both occur in the trace. -/
theorem handleResponse_clipboard_execute_witness :
    (ResponseOptions.CopyToClipboard ⟨true, true⟩ = true ∧ ("ls").data ≠ ([] : GoStr)) ∧
    Effect.clipboardWrite ("ls").data ∈
      handleResponse ⟨true, true, true, ("n").data, true, ⟨2024, 1, 2, 3, 4, 5⟩⟩
        ⟨[], [], [], false, []⟩ ("q").data ⟨("ls").data, [], ("ls").data⟩ ⟨true, true⟩ ∧
    Effect.promptExecute ("ls").data ∈
      handleResponse ⟨true, true, true, ("n").data, true, ⟨2024, 1, 2, 3, 4, 5⟩⟩
        ⟨[], [], [], false, []⟩ ("q").data ⟨("ls").data, [], ("ls").data⟩ ⟨true, true⟩ :=
  ⟨⟨rfl, by decide⟩,
    (handleResponse_clipboard_execute
      ⟨true, true, true, ("n").data, true, ⟨2024, 1, 2, 3, 4, 5⟩⟩
      ⟨[], [], [], false, []⟩ ("q").data ⟨("ls").data, [], ("ls").data⟩
      ⟨true, true⟩).1.mpr ⟨rfl, by decide⟩,
    (handleResponse_clipboard_execute
      ⟨true, true, true, ("n").data, true, ⟨2024, 1, 2, 3, 4, 5⟩⟩
      ⟨[], [], [], false, []⟩ ("q").data ⟨("ls").data, [], ("ls").data⟩
      ⟨true, true⟩).2.mpr ⟨rfl, by decide⟩⟩
